import Mathlib

/-!
Shallow embedding of the real-time synchronization layer of the
collaborative task manager: the client-side View Reconciler
(`ProjectDetail.tsx`), the Client Event Bus (`services/socket.ts`),
and the server-side mutation handlers (`routes/tasks.js`,
`routes/projects.js`), together with proofs of the spec's claims
about them.
-/

namespace TaskManager

/-- The `project` field of a populated task, as produced by
`populate('project', 'name color')`: `{_id, name, color}`. -/
structure ProjectRef where
  _id : String
  name : String
  color : String
deriving DecidableEq, Repr

/-- A task entity as the client sees it (`types/index.ts` `Task`):
identifier, payload fields, and the resolved owning project. -/
structure Task where
  _id : String
  title : String
  status : String
  priority : String
  assignee : Option String
  project : ProjectRef
  createdBy : String
deriving DecidableEq, Repr

/-- The identifiers of the tasks in a client task list, in order. -/
def taskIds (l : List Task) : List String :=
  l.map (fun t => t._id)

/-- `useSocket('task-created')` handler in `ProjectDetail.tsx`:
if the event's project is the viewed one and no task with the same
`_id` is present, prepend; otherwise leave the list unchanged. -/
def onTaskCreated (viewedId : String) (task : Task) (prev : List Task) : List Task :=
  if task.project._id = viewedId then
    if prev.any (fun t => t._id = task._id) then prev else task :: prev
  else prev

/-- `useSocket('task-updated')` handler in `ProjectDetail.tsx`:
if the event's project is the viewed one, replace every entry whose
`_id` matches the event task's `_id` by the event task. -/
def onTaskUpdated (viewedId : String) (task : Task) (prev : List Task) : List Task :=
  if task.project._id = viewedId then
    prev.map (fun t => if t._id = task._id then task else t)
  else prev

/-- `useSocket('task-deleted')` handler in `ProjectDetail.tsx`:
if the event's `projectId` is the viewed one, drop every entry whose
`_id` equals the event's `taskId`. -/
def onTaskDeleted (viewedId : String) (taskId : String) (projectId : String)
    (prev : List Task) : List Task :=
  if projectId = viewedId then prev.filter (fun t => t._id ≠ taskId) else prev

/-- `handleCreateTask` in `ProjectDetail.tsx`, seen as a function of the
REST call's outcome: on failure only `console.error` runs, on success the
returned task is prepended unless an entry with its `_id` already exists. -/
def handleCreateTask (result : Except String Task) (prev : List Task) : List Task :=
  match result with
  | Except.error _ => prev
  | Except.ok task =>
      if prev.any (fun t => t._id = task._id) then prev else task :: prev

/-- `handleUpdateTask` in `ProjectDetail.tsx`: on success, replace every
entry whose `_id` equals the mutated `taskId` by the returned task. -/
def handleUpdateTask (taskId : String) (result : Except String Task)
    (prev : List Task) : List Task :=
  match result with
  | Except.error _ => prev
  | Except.ok updated => prev.map (fun t => if t._id = taskId then updated else t)

/-- `handleDeleteTask` in `ProjectDetail.tsx`: on success, drop every entry
whose `_id` equals the deleted `taskId`. -/
def handleDeleteTask (taskId : String) (result : Except String Unit)
    (prev : List Task) : List Task :=
  match result with
  | Except.error _ => prev
  | Except.ok _ => prev.filter (fun t => t._id ≠ taskId)

/-- A reconciliation operation applied to the client task list: the
wholesale replacement by the initial fetch, the three socket task events,
and the three locally initiated REST mutation results. -/
inductive ROp where
  | fetchReplace (data : List Task)
  | evCreated (task : Task)
  | evUpdated (task : Task)
  | evDeleted (taskId : String) (projectId : String)
  | restCreate (result : Except String Task)
  | restUpdate (taskId : String) (result : Except String Task)
  | restDelete (taskId : String) (result : Except String Unit)

/-- One reconciliation step on the client task list, dispatching each
operation to the corresponding handler in `ProjectDetail.tsx`. -/
def step (viewedId : String) (l : List Task) : ROp → List Task
  | ROp.fetchReplace data => data
  | ROp.evCreated t => onTaskCreated viewedId t l
  | ROp.evUpdated t => onTaskUpdated viewedId t l
  | ROp.evDeleted taskId projectId => onTaskDeleted viewedId taskId projectId l
  | ROp.restCreate result => handleCreateTask result l
  | ROp.restUpdate taskId result => handleUpdateTask taskId result l
  | ROp.restDelete taskId result => handleDeleteTask taskId result l

/-- The server-side collaborator contract on the payloads a client can
actually receive (spec section 6): `GET /api/tasks/project/:projectId`
returns each task once (distinct `_id`s, database-keyed), and a successful
`PUT /api/tasks/:id` returns the task with that same `_id`. -/
def wfOp : ROp → Bool
  | ROp.fetchReplace data => decide (taskIds data).Nodup
  | ROp.restUpdate taskId (Except.ok updated) => updated._id == taskId
  | _ => true

/-- An inbound task event delivered on the push channel, as dispatched by
`SocketService.setupEventListeners`. -/
inductive TaskEvent where
  | created (task : Task)
  | updated (task : Task)
  | deleted (taskId : String) (projectId : String)
deriving DecidableEq, Repr

/-- Apply one inbound task event to the viewed list via the registered
`useSocket` handlers of `ProjectDetail.tsx`. -/
def applyEvent (viewedId : String) (e : TaskEvent) (l : List Task) : List Task :=
  match e with
  | TaskEvent.created task => onTaskCreated viewedId task l
  | TaskEvent.updated task => onTaskUpdated viewedId task l
  | TaskEvent.deleted taskId projectId => onTaskDeleted viewedId taskId projectId l

/-- The project identifier an inbound task event is scoped to: the resolved
`task.project._id` of the payload for created/updated, the explicit
`projectId` field for deleted. -/
def eventProjectId : TaskEvent → String
  | TaskEvent.created t => t.project._id
  | TaskEvent.updated t => t.project._id
  | TaskEvent.deleted _ projectId => projectId

/-- A single logical task mutation, carrying the fully populated entity the
server both returns over REST and broadcasts (spec section 6 collaborator
contract: the two representations are structurally identical). -/
inductive Mutation where
  | create (task : Task)
  | update (taskId : String) (task : Task)
  | delete (taskId : String) (projectId : String)
deriving DecidableEq, Repr

/-- The local REST-response path of a mutation: the success branch of the
corresponding `handle*Task` function in `ProjectDetail.tsx`. -/
def applyRest (m : Mutation) (l : List Task) : List Task :=
  match m with
  | Mutation.create task => handleCreateTask (Except.ok task) l
  | Mutation.update taskId task => handleUpdateTask taskId (Except.ok task) l
  | Mutation.delete taskId _ => handleDeleteTask taskId (Except.ok ()) l

/-- The broadcast-echo path of the same mutation: the socket event the
server publishes for it, folded in by the `useSocket` handlers. -/
def applyPush (viewedId : String) (m : Mutation) (l : List Task) : List Task :=
  match m with
  | Mutation.create task => onTaskCreated viewedId task l
  | Mutation.update _ task => onTaskUpdated viewedId task l
  | Mutation.delete taskId projectId => onTaskDeleted viewedId taskId projectId l

/-- A mutation performed from inside the viewed project's own detail page:
its entity belongs to the viewed project, and (server contract) an update's
returned entity carries the mutated `taskId`. -/
def echoedLocally (viewedId : String) : Mutation → Bool
  | Mutation.create task => task.project._id == viewedId
  | Mutation.update taskId task => task._id == taskId && task.project._id == viewedId
  | Mutation.delete _ projectId => projectId == viewedId

/-!
Server-side mutation handlers, abstracted to their observable action
traces: the order of database reads/writes, entity population, room
broadcast, and HTTP response, exactly as the statements appear in
`routes/tasks.js` and `routes/projects.js` (success path, resource found
and authorized).
-/

/-- One observable action of a mutation-handler body. -/
inductive Act where
  | dbRead
  | dbWrite
  | dbDelete
  | populate
  | publish (kind : String)
  | respond (status : Nat)
deriving DecidableEq, Repr

/-- `POST /api/tasks`: `task.save()`, three `populate`s, `emit`, `res.status(201)`. -/
def createTaskTrace : List Act :=
  [Act.dbWrite, Act.populate, Act.populate, Act.populate,
   Act.publish "task-created", Act.respond 201]

/-- `PUT /api/tasks/:id`: `findById`, project access `findOne`, `task.save()`,
three `populate`s, `emit`, `res.json`. -/
def updateTaskTrace : List Act :=
  [Act.dbRead, Act.dbRead, Act.dbWrite, Act.populate, Act.populate, Act.populate,
   Act.publish "task-updated", Act.respond 200]

/-- `DELETE /api/tasks/:id`: `findById`, project access `findOne`, then the
`emit` of `task-deleted`, and only afterwards `Task.findByIdAndDelete`. -/
def deleteTaskTrace : List Act :=
  [Act.dbRead, Act.dbRead, Act.publish "task-deleted", Act.dbDelete, Act.respond 200]

/-- `POST /api/projects`: `project.save()`, two `populate`s, `emit`, `res.status(201)`. -/
def createProjectTrace : List Act :=
  [Act.dbWrite, Act.populate, Act.populate, Act.publish "project-created", Act.respond 201]

/-- `PUT /api/projects/:id`: owner `findOne`, `project.save()`, two `populate`s,
`emit`, `res.json`. -/
def updateProjectTrace : List Act :=
  [Act.dbRead, Act.dbWrite, Act.populate, Act.populate,
   Act.publish "project-updated", Act.respond 200]

/-- `DELETE /api/projects/:id`: owner `findOne`, `Task.deleteMany`, then the
`emit` of `project-deleted`, and only afterwards `Project.findByIdAndDelete`. -/
def deleteProjectTrace : List Act :=
  [Act.dbRead, Act.dbDelete, Act.publish "project-deleted", Act.dbDelete, Act.respond 200]

/-- `POST /api/projects/:id/members`: owner `findOne`, user `findOne`,
`project.save()`, two `populate`s, `emit`, `res.json`. -/
def addMemberTrace : List Act :=
  [Act.dbRead, Act.dbRead, Act.dbWrite, Act.populate, Act.populate,
   Act.publish "project-member-added", Act.respond 200]

/-- `DELETE /api/projects/:id/members/:memberId` (non-owner member):
owner `findOne`, `project.save()`, two `populate`s, `emit`, `res.json`. -/
def removeMemberTrace : List Act :=
  [Act.dbRead, Act.dbWrite, Act.populate, Act.populate,
   Act.publish "project-member-removed", Act.respond 200]

/-- Is this action an authoritative database mutation? -/
def isMutAct : Act → Bool
  | Act.dbWrite => true
  | Act.dbDelete => true
  | _ => false

/-- Is this action a population of the broadcast entity? -/
def isPopAct : Act → Bool
  | Act.populate => true
  | _ => false

/-- Is this action a room broadcast? -/
def isPubAct : Act → Bool
  | Act.publish _ => true
  | _ => false

/-- No database mutation occurs after any broadcast in the trace: the
broadcast is published only once the handler's writes are done. -/
def noMutAfterPublish : List Act → Bool
  | [] => true
  | Act.publish _ :: rest => rest.all (fun a => !isMutAct a) && noMutAfterPublish rest
  | _ :: rest => noMutAfterPublish rest

/-- No entity population occurs after any broadcast in the trace: the
broadcast entity is fully assembled before it is published. -/
def noPopAfterPublish : List Act → Bool
  | [] => true
  | Act.publish _ :: rest => rest.all (fun a => !isPopAct a) && noPopAfterPublish rest
  | _ :: rest => noPopAfterPublish rest

/-- The database mutations that run after the first broadcast of a handler
trace (empty when the handler publishes only after all its writes). -/
def mutActsAfterFirstPublish : List Act → List Act
  | [] => []
  | Act.publish _ :: rest => rest.filter isMutAct
  | _ :: rest => mutActsAfterFirstPublish rest

/-- The action traces of all eight mutation handlers with a broadcast. -/
def allHandlerTraces : List (List Act) :=
  [createTaskTrace, updateTaskTrace, deleteTaskTrace,
   createProjectTrace, updateProjectTrace, deleteProjectTrace,
   addMemberTrace, removeMemberTrace]

/-!
Client Event Bus: `SocketService` in `frontend/src/services/socket.ts`.
A callback is a function of the event payload that either returns or
throws; `emit` wraps each invocation in try/catch and continues.
-/

/-- An opaque event payload, identified abstractly. -/
abbrev Payload := String

/-- A registered listener callback: given the payload it either succeeds
or throws an exception carrying a message. -/
abbrev Callback := Payload → Except String Unit

/-- The observable outcome of invoking one callback from `emit`:
either it returned normally, or it threw and the exception was caught
(and logged) by the `try`/`catch` around the invocation. -/
inductive CallOutcome where
  | ok
  | caught (msg : String)
deriving DecidableEq, Repr

/-- The body of `eventListeners.forEach` in `SocketService.emit`: invoke
each callback in order with the payload, catching any exception and
proceeding to the next callback. Returns the per-callback outcomes in
invocation order. -/
def invokeAll : List Callback → Payload → List CallOutcome
  | [], _ => []
  | cb :: rest, d =>
      (match cb d with
       | Except.ok _ => CallOutcome.ok
       | Except.error e => CallOutcome.caught e) :: invokeAll rest d

/-- The outcome one callback alone produces on a payload under the
`try`/`catch` of `emit`. -/
def outcomeOf (cb : Callback) (d : Payload) : CallOutcome :=
  match cb d with
  | Except.ok _ => CallOutcome.ok
  | Except.error e => CallOutcome.caught e

/-- The state of the `SocketService` singleton: the optional transport
connection and the listener registry `Map<string, Function[]>`, modelled
as an association list from event kind to callbacks in registration
order. -/
structure SocketServiceState where
  connected : Bool
  listeners : List (String × List Callback)

/-- `SocketService.on`: append the callback to the listener list for the
event kind, creating the entry if absent. -/
def SocketServiceState.onEvent (s : SocketServiceState) (event : String)
    (cb : Callback) : SocketServiceState :=
  match s.listeners.lookup event with
  | some cbs =>
      let updated := s.listeners.map fun p =>
        if p.1 = event then (event, cbs ++ [cb]) else p
      { s with listeners := updated }
  | none => { s with listeners := (event, [cb]) :: s.listeners }

/-- `SocketService.emit`: look up the listener list for the event kind
(no entry means nothing to invoke) and run every callback through
`invokeAll`. -/
def SocketServiceState.emit (s : SocketServiceState) (event : String)
    (d : Payload) : List CallOutcome :=
  match s.listeners.lookup event with
  | some cbs => invokeAll cbs d
  | none => []

/-- The callbacks currently registered for an event kind. -/
def SocketServiceState.registered (s : SocketServiceState) (event : String) :
    List Callback :=
  match s.listeners.lookup event with
  | some cbs => cbs
  | none => []

/-- `SocketService.disconnect`: close and null the socket, and
`this.listeners.clear()` — the registry is emptied unconditionally. -/
def SocketServiceState.disconnect (_s : SocketServiceState) : SocketServiceState :=
  { connected := false, listeners := [] }

/-!
Server-side membership mutation: `DELETE /api/projects/:id/members/:memberId`
in `routes/projects.js`.
-/

/-- A project document as the members route sees it: identifier, owner id,
member ids. -/
structure Project where
  _id : String
  owner : String
  members : List String
deriving DecidableEq, Repr

/-- An event published to the project's room by the members route. -/
inductive SEvent where
  | memberRemoved (project : Project) (removedMemberId : String)
deriving DecidableEq, Repr

/-- The observable outcome of the remove-member handler: HTTP status,
response message, the project document as it stands in the database after
the call, and the events emitted to the project's room. -/
structure RemoveMemberOutcome where
  status : Nat
  message : String
  project : Option Project
  events : List SEvent
deriving DecidableEq, Repr

/-- The `DELETE /api/projects/:id/members/:memberId` handler as a function
of the owner-scoped `findOne` result and the requested `memberId`: 404 when
the project is not found for this owner; 400 `Cannot remove project owner`
(before any write or emit) when `memberId` equals the owner's id; otherwise
filter the member out, save, populate, and emit `project-member-removed`. -/
def removeMemberHandler (findResult : Option Project) (memberId : String) :
    RemoveMemberOutcome :=
  match findResult with
  | none =>
      { status := 404, message := "Project not found or access denied",
        project := none, events := [] }
  | some project =>
      if memberId = project.owner then
        { status := 400, message := "Cannot remove project owner",
          project := some project, events := [] }
      else
        let updated : Project :=
          { project with members := project.members.filter (fun m => m ≠ memberId) }
        { status := 200, message := "",
          project := some updated,
          events := [SEvent.memberRemoved updated memberId] }

/-!
Concrete fixtures used by the witness theorems.
-/

/-- A concrete viewed project reference. -/
def sampleProject : ProjectRef :=
  { _id := "p1", name := "Alpha", color := "#3B82F6" }

/-- A concrete reference to a different project. -/
def otherProject : ProjectRef :=
  { _id := "p2", name := "Beta", color := "#10B981" }

/-- A concrete task with the given identifier, living in the given project. -/
def sampleTask (tid : String) (proj : ProjectRef) : Task :=
  { _id := tid, title := "t", status := "todo", priority := "medium",
    assignee := none, project := proj, createdBy := "u1" }

/-!
Shared lemmas about the reconciliation primitives.
-/

/-- Membership test of the handlers, in propositional form. -/
lemma any_id_eq_true_iff (l : List Task) (tid : String) :
    l.any (fun t => t._id = tid) = true ↔ ∃ t ∈ l, t._id = tid := by
  simp [List.any_eq_true]

/-- Replacing by identifier twice is the same as replacing once. -/
lemma replaceById_idem (tid : String) (a : Task) (l : List Task) :
    (l.map (fun t => if t._id = tid then a else t)).map
        (fun t => if t._id = tid then a else t)
      = l.map (fun t => if t._id = tid then a else t) := by
  induction l with
  | nil => rfl
  | cons t ts ih =>
      by_cases h : t._id = tid
      · simp only [List.map_cons, if_pos h, ih, ite_self]
      · simp only [List.map_cons, if_neg h, ih]

/-- Removing by identifier twice is the same as removing once. -/
lemma removeById_idem (tid : String) (l : List Task) :
    (l.filter (fun t => t._id ≠ tid)).filter (fun t => t._id ≠ tid)
      = l.filter (fun t => t._id ≠ tid) := by
  induction l with
  | nil => rfl
  | cons t ts ih =>
      by_cases h : t._id = tid
      · simp [h, ih]
      · simp [h, ih]

/-- Replacing by identifier leaves the identifier sequence unchanged. -/
lemma taskIds_replaceById (tid : String) (a : Task) (l : List Task)
    (ha : a._id = tid) :
    taskIds (l.map (fun t => if t._id = tid then a else t)) = taskIds l := by
  induction l with
  | nil => rfl
  | cons t ts ih =>
      simp only [taskIds, List.map_cons] at ih ⊢
      by_cases h : t._id = tid
      · rw [if_pos h, ih, ha, h]
      · rw [if_neg h, ih]

/-!
C4 — the task-created reconciliation rule.
-/

/-- C4: for every task list and every inbound `task-created` event for the
viewed project, if no entry with the event task's identifier is present the
task is prepended (the result is the new task followed by the old list, so
the length grows by one); if such an entry is present the list is
unchanged. -/
theorem taskCreated_prepend_or_ignore (viewedId : String) (task : Task)
    (prev : List Task) (hg : task.project._id = viewedId) :
    ((∀ t ∈ prev, t._id ≠ task._id) →
        onTaskCreated viewedId task prev = task :: prev ∧
        (onTaskCreated viewedId task prev).length = prev.length + 1) ∧
    ((∃ t ∈ prev, t._id = task._id) →
        onTaskCreated viewedId task prev = prev) := by
  constructor
  · intro habs
    have hany : prev.any (fun t => t._id = task._id) = false := by
      rw [← Bool.not_eq_true, any_id_eq_true_iff]
      rintro ⟨t, ht, he⟩
      exact habs t ht he
    constructor
    · simp [onTaskCreated, hg, hany]
    · simp [onTaskCreated, hg, hany]
  · intro hex
    have hany : prev.any (fun t => t._id = task._id) = true :=
      (any_id_eq_true_iff prev task._id).mpr hex
    simp [onTaskCreated, hg, hany]

/-- Witness for C4 at concrete inputs: prepending to a singleton list
without the identifier, and ignoring when the identifier is present. -/
theorem taskCreated_prepend_or_ignore_witness :
    onTaskCreated "p1" (sampleTask "t2" sampleProject)
        [sampleTask "t1" sampleProject]
      = sampleTask "t2" sampleProject :: [sampleTask "t1" sampleProject] ∧
    onTaskCreated "p1" (sampleTask "t1" sampleProject)
        [sampleTask "t1" sampleProject]
      = [sampleTask "t1" sampleProject] :=
  ⟨((taskCreated_prepend_or_ignore "p1" (sampleTask "t2" sampleProject)
      [sampleTask "t1" sampleProject] (by decide)).1 (by decide)).1,
   (taskCreated_prepend_or_ignore "p1" (sampleTask "t1" sampleProject)
      [sampleTask "t1" sampleProject] (by decide)).2 (by decide)⟩

/-!
C5 — idempotence of every task event.
-/

/-- C5: applying the same inbound task event (`task-created`,
`task-updated`, or `task-deleted`) twice in succession yields the same
client task list as applying it once. -/
theorem applyEvent_idempotent (viewedId : String) (e : TaskEvent)
    (l : List Task) :
    applyEvent viewedId e (applyEvent viewedId e l) = applyEvent viewedId e l := by
  cases e with
  | created task =>
      simp only [applyEvent, onTaskCreated]
      by_cases hg : task.project._id = viewedId
      · simp only [if_pos hg]
        by_cases hex : l.any (fun t => t._id = task._id) = true
        · simp [hex]
        · simp only [Bool.not_eq_true] at hex
          simp [hex]
      · simp [if_neg hg]
  | updated task =>
      simp only [applyEvent, onTaskUpdated]
      by_cases hg : task.project._id = viewedId
      · simp only [if_pos hg]
        exact replaceById_idem task._id task l
      · simp [if_neg hg]
  | deleted taskId projectId =>
      simp only [applyEvent, onTaskDeleted]
      by_cases hg : projectId = viewedId
      · simp only [if_pos hg]
        exact removeById_idem taskId l
      · simp [if_neg hg]

/-!
C7 — failed REST mutations leave the list untouched.
-/

/-- C7: when a locally initiated REST create, update, or delete of a task
fails, the corresponding handler's catch branch performs no state mutation:
the client task list is returned unchanged. -/
theorem rest_failure_no_state_mutation (msg : String) (taskId : String)
    (prev : List Task) :
    handleCreateTask (Except.error msg) prev = prev ∧
    handleUpdateTask taskId (Except.error msg) prev = prev ∧
    handleDeleteTask taskId (Except.error msg) prev = prev :=
  ⟨rfl, rfl, rfl⟩

/-!
C8 — cross-project events never touch the viewed list.
-/

/-- C8: an inbound task event whose project identifier differs from the
currently viewed project's identifier leaves the task list unchanged: each
`useSocket` handler is guarded on the viewed project's identifier. -/
theorem mismatched_project_event_noop (viewedId : String) (e : TaskEvent)
    (l : List Task) (h : eventProjectId e ≠ viewedId) :
    applyEvent viewedId e l = l := by
  cases e with
  | created task =>
      simp only [eventProjectId] at h
      simp [applyEvent, onTaskCreated, h]
  | updated task =>
      simp only [eventProjectId] at h
      simp [applyEvent, onTaskUpdated, h]
  | deleted taskId projectId =>
      simp only [eventProjectId] at h
      simp [applyEvent, onTaskDeleted, h]

/-- Witness for C8: an event for project `p2` leaves a `p1`-scoped list
unchanged. -/
theorem mismatched_project_event_noop_witness :
    applyEvent "p1" (TaskEvent.created (sampleTask "t9" otherProject))
        [sampleTask "t1" sampleProject]
      = [sampleTask "t1" sampleProject] :=
  mismatched_project_event_noop "p1"
    (TaskEvent.created (sampleTask "t9" otherProject))
    [sampleTask "t1" sampleProject] (by decide)

/-!
C2 — the REST path and the push path agree for the same logical mutation.
-/

/-- For a mutation echoed back to the client that initiated it from the
viewed project's page, the broadcast-echo handler computes exactly the same
list transformation as the REST-response handler. -/
lemma applyPush_eq_applyRest (viewedId : String) (m : Mutation) (l : List Task)
    (h : echoedLocally viewedId m = true) :
    applyPush viewedId m l = applyRest m l := by
  cases m with
  | create task =>
      simp only [echoedLocally, beq_iff_eq] at h
      simp [applyPush, applyRest, onTaskCreated, handleCreateTask, h]
  | update taskId task =>
      simp only [echoedLocally, Bool.and_eq_true, beq_iff_eq] at h
      obtain ⟨hid, hproj⟩ := h
      simp [applyPush, applyRest, onTaskUpdated, handleUpdateTask, hproj, hid]
  | delete taskId projectId =>
      simp only [echoedLocally, beq_iff_eq] at h
      simp [applyPush, applyRest, onTaskDeleted, handleDeleteTask, h]

/-- The REST-response handler of each mutation is idempotent. -/
lemma applyRest_idem (m : Mutation) (l : List Task) :
    applyRest m (applyRest m l) = applyRest m l := by
  cases m with
  | create task =>
      simp only [applyRest, handleCreateTask]
      by_cases hex : l.any (fun t => t._id = task._id) = true
      · simp [hex]
      · simp only [Bool.not_eq_true] at hex
        simp [hex]
  | update taskId task =>
      simp only [applyRest, handleUpdateTask]
      exact replaceById_idem taskId task l
  | delete taskId projectId =>
      simp only [applyRest, handleDeleteTask]
      exact removeById_idem taskId l

/-- C2: for every task list and every single logical mutation initiated
from the viewed project's page, the local REST-response update and the
broadcast-echo event applied in either order, or both, yield the same list
as either one alone: the two paths are idempotent and commutative with
respect to each other. -/
theorem dual_path_idempotent_commutative (viewedId : String) (m : Mutation)
    (l : List Task) (h : echoedLocally viewedId m = true) :
    applyRest m (applyPush viewedId m l) = applyRest m l ∧
    applyPush viewedId m (applyRest m l) = applyRest m l ∧
    applyPush viewedId m l = applyRest m l ∧
    applyRest m (applyRest m l) = applyRest m l ∧
    applyPush viewedId m (applyPush viewedId m l) = applyPush viewedId m l := by
  have hpr : ∀ l' : List Task, applyPush viewedId m l' = applyRest m l' :=
    fun l' => applyPush_eq_applyRest viewedId m l' h
  refine ⟨?_, ?_, hpr l, applyRest_idem m l, ?_⟩
  · rw [hpr l, applyRest_idem m l]
  · rw [hpr (applyRest m l), applyRest_idem m l]
  · rw [hpr (applyPush viewedId m l), hpr l, applyRest_idem m l]

/-- Witness for C2 at a concrete update mutation echoed to its initiator. -/
theorem dual_path_idempotent_commutative_witness :
    applyRest (Mutation.update "t1" (sampleTask "t1" sampleProject))
        (applyPush "p1" (Mutation.update "t1" (sampleTask "t1" sampleProject))
          [sampleTask "t1" sampleProject, sampleTask "t2" sampleProject])
      = applyRest (Mutation.update "t1" (sampleTask "t1" sampleProject))
          [sampleTask "t1" sampleProject, sampleTask "t2" sampleProject] :=
  (dual_path_idempotent_commutative "p1"
    (Mutation.update "t1" (sampleTask "t1" sampleProject))
    [sampleTask "t1" sampleProject, sampleTask "t2" sampleProject]
    (by decide)).1

/-!
C1 — invariant I3: the client task list never contains two entries with
the same task identifier.
-/

/-- Each single reconciliation step preserves distinctness of the task
identifiers in the list, given the server payload contract `wfOp`. -/
lemma step_preserves_nodup (viewedId : String) (op : ROp) (l : List Task)
    (hwf : wfOp op = true) (h : (taskIds l).Nodup) :
    (taskIds (step viewedId l op)).Nodup := by
  cases op with
  | fetchReplace data =>
      simpa [wfOp] using hwf
  | evCreated task =>
      simp only [step, onTaskCreated]
      by_cases hg : task.project._id = viewedId
      · simp only [if_pos hg]
        by_cases hex : l.any (fun t => t._id = task._id) = true
        · simpa [hex] using h
        · simp only [Bool.not_eq_true] at hex
          simp only [hex, Bool.false_eq_true, if_false]
          simp only [taskIds, List.map_cons, List.nodup_cons]
          refine ⟨?_, h⟩
          intro hmem
          obtain ⟨t, ht, he⟩ := List.mem_map.mp hmem
          have : l.any (fun t => t._id = task._id) = true :=
            (any_id_eq_true_iff l task._id).mpr ⟨t, ht, he⟩
          rw [hex] at this
          exact Bool.false_ne_true this
      · simpa [if_neg hg] using h
  | evUpdated task =>
      simp only [step, onTaskUpdated]
      by_cases hg : task.project._id = viewedId
      · simp only [if_pos hg]
        rw [taskIds_replaceById task._id task l rfl]
        exact h
      · simpa [if_neg hg] using h
  | evDeleted taskId projectId =>
      simp only [step, onTaskDeleted]
      by_cases hg : projectId = viewedId
      · simp only [if_pos hg]
        exact List.Nodup.sublist
          (List.Sublist.map _ (List.filter_sublist l)) h
      · simpa [if_neg hg] using h
  | restCreate result =>
      cases result with
      | error msg => simpa [step, handleCreateTask] using h
      | ok task =>
          simp only [step, handleCreateTask]
          by_cases hex : l.any (fun t => t._id = task._id) = true
          · simpa [hex] using h
          · simp only [Bool.not_eq_true] at hex
            simp only [hex, Bool.false_eq_true, if_false]
            simp only [taskIds, List.map_cons, List.nodup_cons]
            refine ⟨?_, h⟩
            intro hmem
            obtain ⟨t, ht, he⟩ := List.mem_map.mp hmem
            have : l.any (fun t => t._id = task._id) = true :=
              (any_id_eq_true_iff l task._id).mpr ⟨t, ht, he⟩
            rw [hex] at this
            exact Bool.false_ne_true this
  | restUpdate taskId result =>
      cases result with
      | error msg => simpa [step, handleUpdateTask] using h
      | ok updated =>
          simp only [step, handleUpdateTask]
          have hid : updated._id = taskId := by
            simpa [wfOp] using hwf
          rw [taskIds_replaceById taskId updated l hid]
          exact h
  | restDelete taskId result =>
      cases result with
      | error msg => simpa [step, handleDeleteTask] using h
      | ok u =>
          simp only [step, handleDeleteTask]
          exact List.Nodup.sublist
            (List.Sublist.map _ (List.filter_sublist l)) h

/-- C1 (invariant I3): for every sequence of reconciliation operations
satisfying the server payload contract, if the client task list starts
with pairwise-distinct task identifiers then it still has pairwise-distinct
identifiers after the whole sequence (and hence, instantiating with every
prefix, after every operation). -/
theorem client_task_ids_distinct (viewedId : String) (ops : List ROp)
    (l : List Task) (hwf : ∀ op ∈ ops, wfOp op = true)
    (h : (taskIds l).Nodup) :
    (taskIds (ops.foldl (step viewedId) l)).Nodup := by
  induction ops generalizing l with
  | nil => simpa using h
  | cons op rest ih =>
      simp only [List.foldl_cons]
      exact ih (step viewedId l op)
        (fun o ho => hwf o (List.mem_cons_of_mem _ ho))
        (step_preserves_nodup viewedId op l (hwf op (List.mem_cons_self _ _)) h)

/-- Witness for C1: a concrete run of fetch, duplicate create events, a
local update result, and a delete keeps the identifiers distinct. -/
theorem client_task_ids_distinct_witness :
    (taskIds (List.foldl (step "p1") []
        [ROp.fetchReplace [sampleTask "t1" sampleProject],
         ROp.evCreated (sampleTask "t2" sampleProject),
         ROp.evCreated (sampleTask "t2" sampleProject),
         ROp.restUpdate "t1" (Except.ok (sampleTask "t1" sampleProject)),
         ROp.restDelete "t1" (Except.ok ())])).Nodup :=
  client_task_ids_distinct "p1"
    [ROp.fetchReplace [sampleTask "t1" sampleProject],
     ROp.evCreated (sampleTask "t2" sampleProject),
     ROp.evCreated (sampleTask "t2" sampleProject),
     ROp.restUpdate "t1" (Except.ok (sampleTask "t1" sampleProject)),
     ROp.restDelete "t1" (Except.ok ())]
    [] (by decide) (by decide)

/-!
C6 — the Client Event Bus delivers to all listeners, tolerating throws.
-/

/-- `emit`'s loop produces, in order, exactly the outcome of each callback
alone on the payload. -/
lemma invokeAll_eq_map (cbs : List Callback) (d : Payload) :
    invokeAll cbs d = cbs.map (fun cb => outcomeOf cb d) := by
  induction cbs with
  | nil => rfl
  | cons cb rest ih =>
      simp only [invokeAll, List.map_cons, ih, outcomeOf]

/-- C6: when the Client Event Bus dispatches an inbound event, every
currently registered callback for that kind is invoked in registration
order with the event payload — the outcome list has one entry per
registered callback, in order, and each entry is determined by that
callback alone, so a callback that throws (whose exception `emit` catches)
never prevents the remaining callbacks from being invoked. -/
theorem emit_invokes_all_in_order (s : SocketServiceState) (event : String)
    (d : Payload) :
    s.emit event d = (s.registered event).map (fun cb => outcomeOf cb d) ∧
    (s.emit event d).length = (s.registered event).length := by
  have hmain : s.emit event d = (s.registered event).map (fun cb => outcomeOf cb d) := by
    simp only [SocketServiceState.emit, SocketServiceState.registered]
    cases s.listeners.lookup event with
    | none => rfl
    | some cbs => exact invokeAll_eq_map cbs d
  exact ⟨hmain, by rw [hmain, List.length_map]⟩

/-!
C10 — `disconnect` empties the listener registry.
-/

/-- C10: after `SocketService.disconnect`, the socket is closed and the
listener registry is cleared: no callback is registered for any event kind,
a subsequently dispatched event invokes no callbacks, and a listener
re-registered through `on` is dispatched to again. -/
theorem disconnect_clears_listener_registry (s : SocketServiceState)
    (event : String) (d : Payload) (cb : Callback) :
    s.disconnect.connected = false ∧
    s.disconnect.listeners = [] ∧
    s.disconnect.registered event = [] ∧
    s.disconnect.emit event d = [] ∧
    (s.disconnect.onEvent event cb).emit event d = invokeAll [cb] d := by
  refine ⟨rfl, rfl, rfl, rfl, ?_⟩
  simp [SocketServiceState.disconnect, SocketServiceState.onEvent,
    SocketServiceState.emit, List.lookup]

/-!
C9 — removing the project owner is rejected before any mutation.
-/

/-- C9: when the owner-scoped lookup succeeds and the requested `memberId`
equals the project owner's id, the remove-member handler responds 400
`Cannot remove project owner`, the project's member list is unchanged in
the database, and no `project-member-removed` event is published. -/
theorem remove_owner_rejected (project : Project) (memberId : String)
    (h : memberId = project.owner) :
    removeMemberHandler (some project) memberId =
      { status := 400, message := "Cannot remove project owner",
        project := some project, events := [] } := by
  simp [removeMemberHandler, h]

/-- Witness for C9: removing `u1`, the owner of a concrete project, is
rejected with the project untouched and nothing emitted. -/
theorem remove_owner_rejected_witness :
    removeMemberHandler
        (some { _id := "p1", owner := "u1", members := ["u1", "u2"] }) "u1"
      = { status := 400, message := "Cannot remove project owner",
          project := some { _id := "p1", owner := "u1", members := ["u1", "u2"] },
          events := [] } :=
  remove_owner_rejected { _id := "p1", owner := "u1", members := ["u1", "u2"] }
    "u1" (by decide)

/-!
C3 — when the broadcast happens relative to the database write.
-/

/-- C3 counterexample: the `DELETE /api/tasks/:id` handler — one of the
mutation handlers the claim quantifies over — emits `task-deleted` before
`Task.findByIdAndDelete` runs, so its broadcast is not published only after
the authoritative write. -/
theorem deleteTask_publishes_before_commit :
    deleteTaskTrace ∈ allHandlerTraces ∧
    (noMutAfterPublish deleteTaskTrace && noPopAfterPublish deleteTaskTrace)
      = false := by
  decide

/-- C3 amended: the create, update, and membership mutation handlers for
tasks and projects publish their event only after the authoritative write
and after the broadcast entity is fully populated; the two delete handlers
instead publish the deletion event first, with exactly the entity's own
final delete still pending afterwards (for project deletion, the project's
tasks are already removed before the publish). -/
theorem publish_after_commit_except_deletes :
    (noMutAfterPublish createTaskTrace && noPopAfterPublish createTaskTrace)
      = true ∧
    (noMutAfterPublish updateTaskTrace && noPopAfterPublish updateTaskTrace)
      = true ∧
    (noMutAfterPublish createProjectTrace && noPopAfterPublish createProjectTrace)
      = true ∧
    (noMutAfterPublish updateProjectTrace && noPopAfterPublish updateProjectTrace)
      = true ∧
    (noMutAfterPublish addMemberTrace && noPopAfterPublish addMemberTrace)
      = true ∧
    (noMutAfterPublish removeMemberTrace && noPopAfterPublish removeMemberTrace)
      = true ∧
    mutActsAfterFirstPublish deleteTaskTrace = [Act.dbDelete] ∧
    mutActsAfterFirstPublish deleteProjectTrace = [Act.dbDelete] ∧
    noPopAfterPublish deleteTaskTrace = true ∧
    noPopAfterPublish deleteProjectTrace = true := by
  decide

end TaskManager
